import Mathlib

/-!
Verification of the GTFS bus schedule fragility pipeline
(`gtfs_bus_schedule_fragility.py`).

The pipeline downloads a GTFS feed, computes per-trip runtimes, derives
layovers between consecutive trips of the same vehicle block, aggregates
both by (route, direction, time band), and combines them into a bounded
composite fragility score which is sorted and written out.

This file gives a shallow embedding of the parts of that program the
stated properties are about.  Data-frame columns become fields of
structures, frame rows become list elements, group-by becomes key
deduplication plus filtering, the stable multi-key frame sort becomes a
stable insertion sort, and floating point arithmetic is embedded as exact
rational arithmetic.  Fallible steps return `Except`, mirroring the
uncaught Python exceptions.  Intermediate orderings that the final output
sort erases (the sample rankings of the two aggregate tables) are not
modelled; no property depends on them.
-/

namespace BusFragility

/-- Band classifier from the source (`time_band_from_sec`): reduce the
seconds value modulo 86400, take the clock hour by integer division, and
classify by fixed hour boundaries 6, 9, 15, 19 with everything else
falling to the overnight band.  The Python remainder of a positive
modulus is non-negative, exactly like `Int.emod` here. -/
def time_band_from_sec (sec : Int) : String :=
  let s := sec % 86400
  let hour := s / 3600
  if 6 ≤ hour ∧ hour < 9 then "AM Peak (6–9)"
  else if 9 ≤ hour ∧ hour < 15 then "Midday (9–15)"
  else if 15 ≤ hour ∧ hour < 19 then "PM Peak (15–19)"
  else if 19 ≤ hour ∧ hour < 24 then "Evening (19–24)"
  else "Overnight (0–6)"

/-- The five labels the classifier can return, in chronological order of
their windows within one day. -/
def bandLabels : List String :=
  ["Overnight (0–6)", "AM Peak (6–9)", "Midday (9–15)", "PM Peak (15–19)",
   "Evening (19–24)"]

/-- Splitting a character sequence on a separator, the Python
`str.split(sep)`: the empty text gives one empty part, and every
occurrence of the separator opens a new part. -/
def splitOnChar (sep : Char) : List Char → List (List Char)
  | [] => [[]]
  | c :: t =>
    if c = sep then [] :: splitOnChar sep t
    else
      match splitOnChar sep t with
      | [] => [[c]]
      | h :: rest => (c :: h) :: rest

/-- Decimal digit accumulation for the integer parser. -/
def digitsAcc : List Char → Nat → Option Nat
  | [], acc => some acc
  | c :: t, acc =>
    if c.isDigit then digitsAcc t (acc * 10 + (c.toNat - 48)) else none

/-- A non-empty all-digit sequence as a natural number, else nothing. -/
def digitsToNat? (cs : List Char) : Option Nat :=
  match cs with
  | [] => none
  | _ => digitsAcc cs 0

/-- The Python `int(text)`: an optional sign followed by digits; the
empty text and any non-digit character fail. -/
def charsToInt? (cs : List Char) : Option Int :=
  match cs with
  | '-' :: rest => (digitsToNat? rest).map (fun n => -(n : Int))
  | _ => (digitsToNat? cs).map (fun n => (n : Int))

/-- Clock parser from the source (`hms_to_seconds`): split on `:`;
anything other than exactly three integer components raises in Python
(wrong arity fails the unpacking, a non-numeric part fails `int`), which
the embedding returns as an error value. -/
def hms_to_seconds (s : String) : Except String Int :=
  match splitOnChar ':' s.data with
  | [h, m, sec] =>
    match charsToInt? h, charsToInt? m, charsToInt? sec with
    | some hv, some mv, some sv => .ok (hv * 3600 + mv * 60 + sv)
    | _, _, _ => .error "ValueError: invalid literal for int"
  | _ => .error "ValueError: unpack"

/-- The column conversion at the source lines 83-84: the parser is mapped
over every clock text of a column.  A Python exception raised for one
value propagates out of the whole map, so one bad value fails the whole
conversion; `mapM` over `Except` has exactly this behaviour. -/
def map_times (vals : List String) : Except String (List Int) :=
  vals.mapM hms_to_seconds

/-- A catalog resource as the loader reads it: the `url` and `name`
fields may be absent (Python `r.get(...) or ""` turns that into ""). -/
structure Resource where
  url : Option String
  name : Option String
deriving DecidableEq, Repr

/-- Whether `needle` occurs contiguously in `hay`, as the Python `in`
operator on strings. -/
def charsContain (needle : List Char) : List Char → Bool
  | [] => needle.isEmpty
  | c :: t => needle.isPrefixOf (c :: t) || charsContain needle t

/-- The lowered url characters of a resource: a missing url reads as ""
(the source writes `r.get("url") or ""` and lowers it). -/
def lower_url (r : Resource) : List Char :=
  (r.url.getD "").data.map Char.toLower

/-- The lowered name characters of a resource. -/
def lower_name (r : Resource) : List Char :=
  (r.name.getD "").data.map Char.toLower

/-- Whether the lowered url ends in ".zip", the archive test of the
loader loop. -/
def is_zip_url (r : Resource) : Bool :=
  ".zip".data.isSuffixOf (lower_url r)

/-- The selection heuristic of the loader loop (source lines 22-27): the
lowered url ends in ".zip" and "gtfs" occurs in the lowered url or the
lowered name. -/
def gtfs_match (r : Resource) : Bool :=
  is_zip_url r &&
    (charsContain "gtfs".data (lower_url r) ||
     charsContain "gtfs".data (lower_name r))

/-- The loader scan: first resource matching the heuristic, if any. -/
def gtfs_res (resources : List Resource) : Option Resource :=
  resources.find? gtfs_match

/-- The loader outcome (source lines 21-30): the scan result, or the
`RuntimeError` the source raises when the scan found nothing. -/
def gtfs_res_or_fail (resources : List Resource) : Except String Resource :=
  match gtfs_res resources with
  | some r => .ok r
  | none => .error "Couldn't find a GTFS zip resource in the package resources."

/-- One row of `bus_trip_runtime`: a bus trip joined with its runtime
record (first departure, last arrival, first and last stop). -/
structure TripRun where
  trip_id : String
  route_id : String
  route_short_name : String
  direction_id : Int
  service_id : String
  block_id : String
  start_sec : Int
  end_sec : Int
  first_stop_id : String
  last_stop_id : String
deriving DecidableEq, Repr

/-- `runtime_min` column: (end - start) / 60, in minutes. -/
def runtime_min (r : TripRun) : ℚ :=
  ((r.end_sec : ℚ) - (r.start_sec : ℚ)) / 60

/-- The service filter (source lines 105-107): keep only trips whose
service id is one of the weekday service ids. -/
def weekday_filter (trips : List TripRun) (weekday_service_ids : List String) :
    List TripRun :=
  trips.filter (fun r => weekday_service_ids.contains r.service_id)

/-- Quantile with linear interpolation between order statistics, the
default of the frame library: for n sorted values the rank is
p * (n - 1); the value interpolates between the floor index and the next
index (clamped).  The empty case never arises in the pipeline, where
every group holds at least one row; 0 stands in for the undefined
(NaN) result there. -/
def quantile (xs : List ℚ) (p : ℚ) : ℚ :=
  let s := xs.insertionSort (fun a b => a ≤ b)
  let n := s.length
  if n = 0 then 0
  else
    let h : ℚ := p * ((n : ℚ) - 1)
    let l : ℕ := (⌊h⌋).toNat
    let lo := s.getD l 0
    let hi := s.getD (min (l + 1) (n - 1)) 0
    lo + (h - (l : ℚ)) * (hi - lo)

/-- Group key of the runtime aggregation (source line 114): route id,
route short name, direction, and the time band of the trip start. -/
def gkey (r : TripRun) : String × String × Int × String :=
  (r.route_id, r.route_short_name, r.direction_id, time_band_from_sec r.start_sec)

/-- One row of the `summary` aggregate, spread column included
(source lines 113-125). -/
structure SummaryRow where
  route_id : String
  route_short_name : String
  direction_id : Int
  time_band : String
  trips : Nat
  median_runtime_min : ℚ
  p10_runtime_min : ℚ
  p90_runtime_min : ℚ
  runtime_spread_min : ℚ
deriving DecidableEq, Repr

/-- The aggregate row of one runtime group: count, median, p10, p90 of
the runtime minutes, and the spread p90 - p10. -/
def mkSummaryRow (rows : List TripRun) (k : String × String × Int × String) :
    SummaryRow :=
  let g := rows.filter (fun r => decide (gkey r = k))
  let vals := g.map runtime_min
  let p10 := quantile vals (10 / 100)
  let p90 := quantile vals (90 / 100)
  { route_id := k.1
    route_short_name := k.2.1
    direction_id := k.2.2.1
    time_band := k.2.2.2
    trips := g.length
    median_runtime_min := quantile vals (1 / 2)
    p10_runtime_min := p10
    p90_runtime_min := p90
    runtime_spread_min := p90 - p10 }

/-- The runtime variability aggregate: one row per distinct group key, in
first-appearance order of the keys.  (The source then orders this sample
table by descending trip count; the final output re-sorts, so that
ordering is not modelled.) -/
def summary (rows : List TripRun) : List SummaryRow :=
  ((rows.map gkey).dedup).map (mkSummaryRow rows)

/-- Block grouping key (source lines 131-146): service id and block id. -/
def bkey (r : TripRun) : String × String :=
  (r.service_id, r.block_id)

/-- A layover candidate: a trip together with the start second and first
stop of the next trip of the same (service, block) group, the result of
the shift(-1) columns once rows without a successor are dropped. -/
structure BlockRow where
  trip : TripRun
  next_start_sec : Int
  next_first_stop_id : String
deriving DecidableEq, Repr

/-- `layover_min` column: gap from this trip end to the next trip start,
in minutes. -/
def layover_min (c : BlockRow) : ℚ :=
  ((c.next_start_sec : ℚ) - (c.trip.end_sec : ℚ)) / 60

/-- Adjacent pairs of one sorted block group: each element paired with
its immediate successor; the last element, having no successor, yields
nothing (the dropna of the source line 155). -/
def block_pairs (g : List TripRun) : List BlockRow :=
  (g.zip g.tail).map (fun p => ⟨p.1, p.2.start_sec, p.2.first_stop_id⟩)

/-- All layover candidates: rows grouped by (service id, block id), each
group sorted by start second (stably, as the frame sort on the already
ordered frame), then scanned for adjacent pairs. -/
def block_trips (rows : List TripRun) : List BlockRow :=
  ((rows.map bkey).dedup).flatMap (fun k =>
    block_pairs ((rows.filter (fun r => decide (bkey r = k))).insertionSort
      (fun a b => a.start_sec ≤ b.start_sec)))

/-- The retention test of the source lines 158-162: gap between 0 and
120 minutes and the last stop of the trip equals the first stop of the
next trip. -/
def layover_keep (c : BlockRow) : Bool :=
  decide (0 ≤ layover_min c ∧ layover_min c ≤ 120 ∧
    c.trip.last_stop_id = c.next_first_stop_id)

/-- The retained layovers. -/
def layovers (rows : List TripRun) : List BlockRow :=
  (block_trips rows).filter layover_keep

/-- Group key of the layover aggregation (source lines 153, 167): route
id, short name, direction, and the band of the trip END second (line 153
reassigns the band column from end_sec before grouping). -/
def lgkey (c : BlockRow) : String × String × Int × String :=
  (c.trip.route_id, c.trip.route_short_name, c.trip.direction_id,
   time_band_from_sec c.trip.end_sec)

/-- One row of `layover_summary` (source lines 165-176). -/
structure LayoverAggRow where
  route_id : String
  route_short_name : String
  direction_id : Int
  time_band : String
  layovers : Nat
  median_layover_min : ℚ
  p10_layover_min : ℚ
  p90_layover_min : ℚ
deriving DecidableEq, Repr

/-- The aggregate row of one layover group. -/
def mkLayoverAggRow (ls : List BlockRow) (k : String × String × Int × String) :
    LayoverAggRow :=
  let g := ls.filter (fun c => decide (lgkey c = k))
  let vals := g.map layover_min
  { route_id := k.1
    route_short_name := k.2.1
    direction_id := k.2.2.1
    time_band := k.2.2.2
    layovers := g.length
    median_layover_min := quantile vals (1 / 2)
    p10_layover_min := quantile vals (10 / 100)
    p90_layover_min := quantile vals (90 / 100) }

/-- The layover aggregate: one row per distinct group key.  (The source
then orders it by median layover; the final output re-sorts, so that
ordering is not modelled.) -/
def layover_summary (rows : List TripRun) : List LayoverAggRow :=
  let ls := layovers rows
  ((ls.map lgkey).dedup).map (mkLayoverAggRow ls)

/-- The join key of a summary row. -/
def skey (s : SummaryRow) : String × String × Int × String :=
  (s.route_id, s.route_short_name, s.direction_id, s.time_band)

/-- The join key of a layover aggregate row. -/
def lkey (l : LayoverAggRow) : String × String × Int × String :=
  (l.route_id, l.route_short_name, l.direction_id, l.time_band)

/-- The left join of the source lines 178-182: every left row paired
with each matching right row, or with nothing when no right row
matches (the frame fills the right columns with NaN there, embedded as
`none`). -/
def leftJoin (ls : List SummaryRow) (rs : List LayoverAggRow) :
    List (SummaryRow × Option LayoverAggRow) :=
  ls.flatMap (fun s =>
    match rs.filter (fun r => decide (lkey r = skey s)) with
    | [] => [(s, none)]
    | m :: ms => (m :: ms).map (fun r => (s, some r)))

/-- Rounding to two decimals, the `.round(2)` of the source line 210.
Exact halves of a cent round here half-up where Python rounds half to
even; every property proved below depends only on the rounded value
staying within half a cent of its argument. -/
def round2 (q : ℚ) : ℚ :=
  ((round (q * 100) : ℤ) : ℚ) / 100

/-- The layover component score (source lines 197-200): the median
layover is clipped at 0 and fed to the saturating decay 0.95 / (1 + x). -/
def layover_score (lay : ℚ) : ℚ :=
  (0.95 : ℚ) / (1 + max lay 0)

/-- The runtime component score (source lines 189, 203): the spread is
clipped at 0 and fed to the bounded growth x / (x + k). -/
def runtime_score (spread k : ℚ) : ℚ :=
  max spread 0 / (max spread 0 + k)

/-- The composite score (source lines 207-210): weighted sum of the two
component scores, rounded to two decimals. -/
def fragility_score (lay spread k : ℚ) : ℚ :=
  round2 (35 * layover_score lay + 60 * runtime_score spread k)

/-- The robust normalization constant (source lines 189-194): over the
clipped spreads of all rows, median + 2 * IQR when the IQR is positive,
else the 90th percentile, floored at 1. -/
def k_const (spreads : List ℚ) : ℚ :=
  let clipped := spreads.map (fun x => max x 0)
  let q50 := quantile clipped (1 / 2)
  let iqr := quantile clipped (75 / 100) - quantile clipped (25 / 100)
  let k := if 0 < iqr then q50 + 2 * iqr else quantile clipped (90 / 100)
  max k 1

/-- The rationale text (source lines 212-222), given the row median
layover, the row spread and the 90th spread percentile of the whole
table. -/
def explain (median_layover spread q90_spread : ℚ) : String :=
  let parts : List String :=
    (if median_layover ≤ 1 then ["no recovery time"]
     else if median_layover ≤ 3 then ["very low recovery time"] else []) ++
    (if q90_spread ≤ spread then ["high schedule variability"] else [])
  if parts = [] then "moderate" else String.intercalate ", " parts

/-- One row of the final `fragility_base` table.  Columns that stay NaN
for rows without a layover match (count and layover percentiles) are
options; the median layover is total because the source fills it. -/
structure FragRow where
  route_id : String
  route_short_name : String
  direction_id : Int
  time_band : String
  trips : Nat
  median_runtime_min : ℚ
  p10_runtime_min : ℚ
  p90_runtime_min : ℚ
  runtime_spread_min : ℚ
  layovers : Option Nat
  median_layover_min : ℚ
  p10_layover_min : Option ℚ
  p90_layover_min : Option ℚ
  layover_score : ℚ
  runtime_score : ℚ
  fragility_score : ℚ
  why : String
deriving DecidableEq, Repr

/-- One joined row finalized (source lines 184-224): the missing median
layover filled with 10, then the three scores and the rationale. -/
def finalizeRow (k q90_spread : ℚ) (p : SummaryRow × Option LayoverAggRow) :
    FragRow :=
  let s := p.1
  let med := (p.2.map (fun l => l.median_layover_min)).getD 10
  { route_id := s.route_id
    route_short_name := s.route_short_name
    direction_id := s.direction_id
    time_band := s.time_band
    trips := s.trips
    median_runtime_min := s.median_runtime_min
    p10_runtime_min := s.p10_runtime_min
    p90_runtime_min := s.p90_runtime_min
    runtime_spread_min := s.runtime_spread_min
    layovers := p.2.map (fun l => l.layovers)
    median_layover_min := med
    p10_layover_min := p.2.map (fun l => l.p10_layover_min)
    p90_layover_min := p.2.map (fun l => l.p90_layover_min)
    layover_score := layover_score med
    runtime_score := runtime_score s.runtime_spread_min k
    fragility_score := fragility_score med s.runtime_spread_min k
    why := explain med s.runtime_spread_min q90_spread }

/-- The final fragility table before the output sort: the two aggregates
left-joined, the normalization constant and the 90th spread percentile
computed over the whole joined table, every row finalized. -/
def fragility_base (rows : List TripRun) : List FragRow :=
  let joined := leftJoin (summary rows) (layover_summary rows)
  let spreads := joined.map (fun p => p.1.runtime_spread_min)
  let k := k_const spreads
  let q90 := quantile spreads (90 / 100)
  joined.map (finalizeRow k q90)

/-- The output ordering of the source lines 264-267: ascending by route
id, then direction id, then the time band COLUMN VALUE, which is a plain
label string compared as such. -/
def out_rel (a b : FragRow) : Prop :=
  a.route_id < b.route_id ∨ (a.route_id = b.route_id ∧
    (a.direction_id < b.direction_id ∨ (a.direction_id = b.direction_id ∧
      a.time_band ≤ b.time_band)))

instance out_rel_dec : DecidableRel out_rel := fun a b => by
  unfold out_rel; infer_instance

/-- The output sort: a stable sort under `out_rel`, as the stable
multi-key frame sort. -/
def out_sort (fb : List FragRow) : List FragRow :=
  fb.insertionSort out_rel

/-- The written table `out`: the fragility table in output order. -/
def out (rows : List TripRun) : List FragRow :=
  out_sort (fragility_base rows)

/-- The write step.  Between the service/mode filter and the two
`to_csv` calls the source raises nothing and tests nothing: whatever
table the pipeline computed, the empty one included, is written and the
run succeeds.  The error side of the type is never used; it records that
the source has no abort path here. -/
def write_out (rows : List TripRun) : Except String (List FragRow) :=
  .ok (out rows)

/-- The output grain of one row: route id, direction id, time band. -/
def out_triple (f : FragRow) : String × Int × String :=
  (f.route_id, f.direction_id, f.time_band)

/-- Modelled from the spec: the fixed chronological order of the five
band labels (Overnight, AM Peak, Midday, PM Peak, Evening), the order
the output sort is claimed to use for the band column. -/
def band_rank (b : String) : Nat :=
  if b = "Overnight (0–6)" then 0
  else if b = "AM Peak (6–9)" then 1
  else if b = "Midday (9–15)" then 2
  else if b = "PM Peak (15–19)" then 3
  else if b = "Evening (19–24)" then 4
  else 5

/-- Modelled from the spec: the claimed output ordering, ascending by
route id, then direction id, then chronological band rank. -/
def chrono_le (a b : FragRow) : Bool :=
  decide (a.route_id < b.route_id ∨ (a.route_id = b.route_id ∧
    (a.direction_id < b.direction_id ∨ (a.direction_id = b.direction_id ∧
      band_rank a.time_band ≤ band_rank b.time_band))))

/-- The full merge key of a final row, route short name included: the
four columns the two aggregates are joined on. -/
def fkey (f : FragRow) : String × String × Int × String :=
  (f.route_id, f.route_short_name, f.direction_id, f.time_band)

instance out_rel_total : IsTotal FragRow out_rel :=
  ⟨by
    intro a b
    rcases lt_trichotomy a.route_id b.route_id with h | h | h
    · exact Or.inl (Or.inl h)
    · rcases lt_trichotomy a.direction_id b.direction_id with h2 | h2 | h2
      · exact Or.inl (Or.inr ⟨h, Or.inl h2⟩)
      · rcases le_total a.time_band b.time_band with h3 | h3
        · exact Or.inl (Or.inr ⟨h, Or.inr ⟨h2, h3⟩⟩)
        · exact Or.inr (Or.inr ⟨h.symm, Or.inr ⟨h2.symm, h3⟩⟩)
      · exact Or.inr (Or.inr ⟨h.symm, Or.inl h2⟩)
    · exact Or.inr (Or.inl h)⟩

instance out_rel_trans : IsTrans FragRow out_rel :=
  ⟨by
    intro a b c hab hbc
    rcases hab with h1 | ⟨e1, h1⟩ <;> rcases hbc with h2 | ⟨e2, h2⟩
    · exact Or.inl (lt_trans h1 h2)
    · exact Or.inl (lt_of_lt_of_le h1 (le_of_eq e2))
    · exact Or.inl (lt_of_le_of_lt (le_of_eq e1) h2)
    · refine Or.inr ⟨e1.trans e2, ?_⟩
      rcases h1 with h1 | ⟨f1, h1⟩ <;> rcases h2 with h2 | ⟨f2, h2⟩
      · exact Or.inl (lt_trans h1 h2)
      · exact Or.inl (lt_of_lt_of_le h1 (le_of_eq f2))
      · exact Or.inl (lt_of_le_of_lt (le_of_eq f1) h2)
      · exact Or.inr ⟨f1.trans f2, le_trans h1 h2⟩⟩

/-- A catalog resource whose url is an archive but carries no gtfs
token: the heuristic rejects it. -/
def plainZipRes : Resource :=
  ⟨some "https://host/data.zip", some "TTC schedule"⟩

/-- A trip of a Saturday-only service pattern. -/
def tripSat : TripRun :=
  ⟨"t9", "R9", "9", 0, "SAT2024", "B9", 3600, 5400, "X", "Y"⟩

/-- A single weekday bus trip: 6:00 to 6:30, stops A to B. -/
def trip0 : TripRun :=
  ⟨"t1", "R1", "7", 0, "S", "B", 21600, 23400, "A", "B"⟩

/-- The summary row of the one-trip pipeline: a single group with zero
spread; no layover aggregate row will match it. -/
def s0 : SummaryRow :=
  { route_id := "R1", route_short_name := "7", direction_id := 0,
    time_band := "AM Peak (6–9)", trips := 1, median_runtime_min := 30,
    p10_runtime_min := 30, p90_runtime_min := 30, runtime_spread_min := 0 }

/-- A final row of route R1, direction 0, with the given band label. -/
def rowWithBand (band : String) : FragRow :=
  { route_id := "R1", route_short_name := "7", direction_id := 0,
    time_band := band, trips := 100, median_runtime_min := 30,
    p10_runtime_min := 28, p90_runtime_min := 33, runtime_spread_min := 5,
    layovers := some 10, median_layover_min := 5, p10_layover_min := some 2,
    p90_layover_min := some 9, layover_score := 19 / 120,
    runtime_score := 1 / 2, fragility_score := 71 / 2, why := "moderate" }

/-- The overnight-band row of the sorting counterexample. -/
def rowOvernight : FragRow := rowWithBand "Overnight (0–6)"

/-- The AM-peak-band row of the sorting counterexample. -/
def rowAMPeak : FragRow := rowWithBand "AM Peak (6–9)"

/-- Claim C2: a layover candidate (a consecutive trip pair within one
(service id, block id) group ordered by start instant) is retained if
and only if its gap lies between 0 and 120 minutes and the last stop of
the predecessor equals the first stop of the successor; in particular no
retained record violates either condition. -/
theorem layovers_retained_iff (rows : List TripRun) (c : BlockRow) :
    c ∈ layovers rows ↔
      c ∈ block_trips rows ∧ 0 ≤ layover_min c ∧ layover_min c ≤ 120 ∧
        c.trip.last_stop_id = c.next_first_stop_id := by
  simp [layovers, layover_keep, List.mem_filter, and_assoc]

/-- Claim C5 counterexample: a catalog holding exactly one resource,
whose url is an archive (ends in ".zip") but has no gtfs token: the
claimed fallback would select it, yet the loader fails with the
not-found error. -/
theorem gtfs_res_no_fallback :
    (∃ r ∈ [plainZipRes], is_zip_url r = true) ∧
    gtfs_res_or_fail [plainZipRes] =
      .error "Couldn't find a GTFS zip resource in the package resources." :=
  ⟨⟨plainZipRes, by simp, by decide⟩, rfl⟩

/-- Claim C5 (amended): the loader fails with the not-found error
exactly when no resource matches the combined heuristic (archive url AND
gtfs token in url or name); there is no fallback to the first
archive-typed resource. -/
theorem gtfs_res_error_iff (resources : List Resource) :
    gtfs_res_or_fail resources =
      .error "Couldn't find a GTFS zip resource in the package resources." ↔
    ∀ r ∈ resources, gtfs_match r = false := by
  unfold gtfs_res_or_fail gtfs_res
  rcases h : resources.find? gtfs_match with _ | r
  · rw [List.find?_eq_none] at h
    simp only [true_iff]
    intro r hr
    exact Bool.not_eq_true _ ▸ h r hr
  · have hm : gtfs_match r = true := List.find?_some h
    have hmem : r ∈ resources := List.mem_of_find?_eq_some h
    simp only [iff_false, reduceCtorEq, false_iff]
    intro hall
    exact absurd hm (by simp [hall r hmem])

/-- Claim C6, behaviour of the code at a malformed clock text: the
parser fails on wrong arity, parses past-midnight times, and one
malformed value fails the whole column conversion (the Python exception
propagates out of the map), rather than dropping just that row. -/
theorem malformed_time_aborts :
    hms_to_seconds "7:30" = .error "ValueError: unpack" ∧
    hms_to_seconds "25:30:00" = .ok 91800 ∧
    map_times ["08:00:00", "7:30", "09:00:00"] = .error "ValueError: unpack" :=
  ⟨rfl, rfl, rfl⟩

/-- Claim C7, behaviour of the code when the filters leave zero rows:
the weekday filter applied to a feed with only a Saturday service keeps
nothing, and the writer still succeeds with an empty table — no error is
raised before the write. -/
theorem empty_filter_silent_output :
    weekday_filter [tripSat] ["WKDY"] = [] ∧
    write_out (weekday_filter [tripSat] ["WKDY"]) = .ok [] :=
  ⟨rfl, rfl⟩

/-- Claim C10: the band classifier is total on every integer seconds
value, negative inputs included: the remainder modulo 86400 is
non-negative and the result is always one of the five band labels. -/
theorem time_band_from_sec_total (sec : Int) :
    0 ≤ sec % 86400 ∧ time_band_from_sec sec ∈ bandLabels := by
  refine ⟨Int.emod_nonneg sec (by norm_num), ?_⟩
  simp only [time_band_from_sec, bandLabels]
  split_ifs <;> simp

/-- Two seconds values congruent modulo 86400 get the same band. -/
theorem time_band_congr (a b : Int) (h : a % 86400 = b % 86400) :
    time_band_from_sec a = time_band_from_sec b := by
  unfold time_band_from_sec
  rw [h]

/-- Claim C3: on one day the five bands partition [0, 86400) — each
label is returned exactly on its window, the windows are disjoint and
cover the day — and the classifier is invariant under adding whole days. -/
theorem time_band_partition (s : ℕ) :
    time_band_from_sec s ∈ bandLabels ∧
    (s < 86400 →
      ((time_band_from_sec s = "Overnight (0–6)" ↔ s < 21600) ∧
       (time_band_from_sec s = "AM Peak (6–9)" ↔ 21600 ≤ s ∧ s < 32400) ∧
       (time_band_from_sec s = "Midday (9–15)" ↔ 32400 ≤ s ∧ s < 54000) ∧
       (time_band_from_sec s = "PM Peak (15–19)" ↔ 54000 ≤ s ∧ s < 68400) ∧
       (time_band_from_sec s = "Evening (19–24)" ↔ 68400 ≤ s ∧ s < 86400))) ∧
    ∀ n : ℕ, time_band_from_sec ((s : Int) + 86400 * (n : Int)) =
      time_band_from_sec s := by
  refine ⟨(time_band_from_sec_total s).2, ?_, ?_⟩
  · intro hs
    have hm : ((s : Int)) % 86400 = (s : Int) := by omega
    simp only [time_band_from_sec, hm]
    split_ifs with h1 h2 h3 h4 <;> simp <;> omega
  · intro n
    exact time_band_congr _ _ (by omega)

/-- Concrete check of claim C3 at 7:00 (25200 s): inside [0, 86400) the
partition places it in the AM peak window. -/
theorem time_band_partition_witness :
    (25200 : ℕ) < 86400 ∧
    time_band_from_sec ((25200 : ℕ) : Int) = "AM Peak (6–9)" := by
  refine ⟨by norm_num, ?_⟩
  exact ((time_band_partition 25200).2.1 (by norm_num)).2.1.mpr (by norm_num)

/-- The rounding step keeps a positive argument below 93.25 inside
[0, 95): it moves the value by at most half a cent. -/
theorem round2_bounds (q : ℚ) (h0 : 0 < q) (h1 : q < 93.25) :
    0 ≤ round2 q ∧ round2 q < 95 := by
  unfold round2
  constructor
  · apply div_nonneg _ (by norm_num)
    have hz : (0 : ℤ) ≤ round (q * 100) := by
      rw [round_eq]
      exact Int.le_floor.mpr (by push_cast; linarith)
    exact_mod_cast hz
  · rw [div_lt_iff₀ (by norm_num : (0 : ℚ) < 100)]
    have hle : ((round (q * 100) : ℤ) : ℚ) ≤ q * 100 + 1 / 2 := by
      rw [round_eq]
      exact_mod_cast Int.floor_le (q * 100 + 1 / 2)
    linarith

/-- Claim C1: for every median layover, every spread, and every
normalization constant at least 1 (the source floors k at 1.0), the
layover component lies in (0, 0.95], the runtime component in [0, 1),
and the rounded composite in [0, 95). -/
theorem score_bounds (lay spread k : ℚ) (hk : 1 ≤ k) :
    0 < layover_score lay ∧ layover_score lay ≤ 0.95 ∧
    0 ≤ runtime_score spread k ∧ runtime_score spread k < 1 ∧
    0 ≤ fragility_score lay spread k ∧ fragility_score lay spread k < 95 := by
  have hm : (0 : ℚ) ≤ max lay 0 := le_max_right lay 0
  have hden : (0 : ℚ) < 1 + max lay 0 := by linarith
  have h1 : 0 < layover_score lay := by
    unfold layover_score
    exact div_pos (by norm_num) hden
  have h2 : layover_score lay ≤ 0.95 := by
    unfold layover_score
    exact div_le_self (by norm_num) (by linarith)
  have hs : (0 : ℚ) ≤ max spread 0 := le_max_right spread 0
  have hd2 : (0 : ℚ) < max spread 0 + k := by linarith
  have h3 : 0 ≤ runtime_score spread k := by
    unfold runtime_score
    exact div_nonneg hs hd2.le
  have h4 : runtime_score spread k < 1 := by
    unfold runtime_score
    rw [div_lt_one hd2]
    linarith
  have hx0 : 0 < 35 * layover_score lay + 60 * runtime_score spread k := by
    linarith
  have hx1 : 35 * layover_score lay + 60 * runtime_score spread k < 93.25 := by
    have e95 : (0.95 : ℚ) = 19 / 20 := by norm_num
    rw [e95] at h2
    have e93 : (93.25 : ℚ) = 373 / 4 := by norm_num
    rw [e93]
    linarith
  have hr := round2_bounds _ hx0 hx1
  exact ⟨h1, h2, h3, h4, hr.1, hr.2⟩

/-- Concrete check of claim C1 at layover 0, spread 0, k = 1. -/
theorem score_bounds_witness :
    (1 : ℚ) ≤ 1 ∧
    (0 < layover_score 0 ∧ layover_score 0 ≤ 0.95 ∧
     0 ≤ runtime_score 0 1 ∧ runtime_score 0 1 < 1 ∧
     0 ≤ fragility_score 0 0 1 ∧ fragility_score 0 0 1 < 95) :=
  ⟨le_refl 1, score_bounds 0 0 1 (le_refl 1)⟩

/-- Claim C4 counterexample: two final rows of one route and direction,
an overnight row and an AM-peak row: the writer emits the AM-peak row
first, because the band key is the alphabetical order of the label
strings; the chronological band order of the claim would place the
overnight row first (its rank is lower). -/
theorem out_sort_not_chrono :
    out_sort [rowOvernight, rowAMPeak] = [rowAMPeak, rowOvernight] ∧
    chrono_le rowAMPeak rowOvernight = false ∧
    band_rank rowOvernight.time_band < band_rank rowAMPeak.time_band := by
  have hlt : ("AM Peak (6–9)" : String) < "Overnight (0–6)" :=
    String.lt_iff_toList_lt.mpr (by decide)
  have hno : ¬ out_rel rowOvernight rowAMPeak := by
    unfold out_rel rowOvernight rowAMPeak rowWithBand
    rintro (h | ⟨-, h | ⟨-, h⟩⟩)
    · exact lt_irrefl _ h
    · exact lt_irrefl _ h
    · exact absurd hlt (not_lt.mpr h)
  refine ⟨?_, ?_, ?_⟩
  · unfold out_sort
    simp only [List.insertionSort, List.orderedInsert]
    rw [if_neg hno]
  · unfold chrono_le
    apply decide_eq_false
    rintro (h | ⟨-, h | ⟨-, h⟩⟩)
    · exact lt_irrefl _ h
    · exact lt_irrefl _ h
    · exact absurd h (by decide)
  · decide

/-- Claim C4 (amended): the writer orders the final table ascending by
(route id, direction id, time band), the band compared as a plain label
string (alphabetically), and writes a permutation of the fragility
table. -/
theorem out_sorted_lex (rows : List TripRun) :
    (out rows).Perm (fragility_base rows) ∧
    (out rows).Pairwise out_rel := by
  constructor
  · exact List.perm_insertionSort out_rel (fragility_base rows)
  · exact List.sorted_insertionSort out_rel (fragility_base rows)

/-- Membership in the left join: every joined pair takes its left row
from the left table, and its right part is either nothing or some right
row whose key equals the left key. -/
theorem leftJoin_mem {ls : List SummaryRow} {rs : List LayoverAggRow}
    {p : SummaryRow × Option LayoverAggRow} (hp : p ∈ leftJoin ls rs) :
    p.1 ∈ ls ∧ (p.2 = none ∨ ∃ m ∈ rs, p.2 = some m ∧ lkey m = skey p.1) := by
  rcases List.mem_flatMap.mp hp with ⟨s, hs, hmem⟩
  rcases hfl : rs.filter (fun r => decide (lkey r = skey s)) with _ | ⟨m, ms⟩
  · rw [hfl] at hmem
    simp only [List.mem_singleton] at hmem
    subst hmem
    exact ⟨hs, Or.inl rfl⟩
  · rw [hfl] at hmem
    simp only [List.mem_map] at hmem
    rcases hmem with ⟨m0, hm0, hpe⟩
    have hm0f : m0 ∈ rs.filter (fun r => decide (lkey r = skey s)) := by
      rw [hfl]; exact hm0
    have h2 := List.mem_filter.mp hm0f
    subst hpe
    refine ⟨hs, Or.inr ⟨m0, h2.1, rfl, ?_⟩⟩
    simpa using h2.2

/-- Claim C9: a joined row whose left key matches no layover aggregate
row was joined with nothing, so finalizing it (as `fragility_base` does
to every joined row) defaults its median layover to 10 minutes and its
layover component score to 0.95 / 11 — whatever the normalization
constant and spread threshold of the run are. -/
theorem missing_layover_default (ss : List SummaryRow)
    (ls : List LayoverAggRow) (k q90 : ℚ)
    (p : SummaryRow × Option LayoverAggRow) (hp : p ∈ leftJoin ss ls)
    (hnone : ∀ l ∈ ls, lkey l ≠ skey p.1) :
    p.2 = none ∧ (finalizeRow k q90 p).median_layover_min = 10 ∧
    (finalizeRow k q90 p).layover_score = 0.95 / 11 := by
  have hj := leftJoin_mem hp
  rcases hj.2 with hnone2 | ⟨m, hm, hsome, hkeyeq⟩
  · refine ⟨hnone2, ?_, ?_⟩
    · simp [finalizeRow, hnone2]
    · simp only [finalizeRow, hnone2, Option.map_none', Option.getD_none,
        layover_score]
      rw [max_eq_left (by norm_num : (0 : ℚ) ≤ 10)]
      norm_num
  · exact absurd hkeyeq (hnone m hm)

/-- Concrete check of claim C9: one summary row joined against an empty
layover aggregate is joined with nothing and finalized with the default
median and the default layover score. -/
theorem missing_layover_default_witness :
    ((s0, none) : SummaryRow × Option LayoverAggRow) ∈ leftJoin [s0] [] ∧
    (finalizeRow 1 0 ((s0, none) : SummaryRow × Option LayoverAggRow)).median_layover_min = 10 ∧
    (finalizeRow 1 0 ((s0, none) : SummaryRow × Option LayoverAggRow)).layover_score = 0.95 / 11 := by
  have hp : ((s0, none) : SummaryRow × Option LayoverAggRow) ∈ leftJoin [s0] [] :=
    List.mem_singleton.mpr rfl
  have h := missing_layover_default [s0] [] 1 0 (s0, none) hp
    (by intro l hl; simp at hl)
  exact ⟨hp, h.2.1, h.2.2⟩

/-- The builder of a summary row restores its group key. -/
theorem skey_mkSummaryRow (rows : List TripRun)
    (k : String × String × Int × String) :
    skey (mkSummaryRow rows k) = k := rfl

/-- The summary key column is the deduplicated group key column of the
input rows: each distinct key exactly once. -/
theorem summary_keys (rows : List TripRun) :
    (summary rows).map skey = (rows.map gkey).dedup := by
  simp only [summary, List.map_map]
  have h : skey ∘ mkSummaryRow rows = id :=
    funext fun k => skey_mkSummaryRow rows k
  rw [h, List.map_id]

/-- The builder of a layover aggregate row restores its group key. -/
theorem lkey_mkLayoverAggRow (ls : List BlockRow)
    (k : String × String × Int × String) :
    lkey (mkLayoverAggRow ls k) = k := rfl

/-- The layover aggregate key column is deduplicated: one row per key. -/
theorem layover_summary_keys (rows : List TripRun) :
    (layover_summary rows).map lkey = ((layovers rows).map lgkey).dedup := by
  simp only [layover_summary, List.map_map]
  have h : lkey ∘ mkLayoverAggRow (layovers rows) = id :=
    funext fun k => lkey_mkLayoverAggRow (layovers rows) k
  rw [h, List.map_id]

/-- A list whose key column is duplicate-free holds at most one element
of any given key. -/
theorem length_filter_key_le_one {α κ : Type} [DecidableEq κ] (key : α → κ)
    (k : κ) : ∀ l : List α, (l.map key).Nodup →
      (l.filter (fun x => decide (key x = k))).length ≤ 1
  | [], _ => by simp
  | a :: t, h => by
    rw [List.map_cons, List.nodup_cons] at h
    by_cases hk : key a = k
    · have ht : t.filter (fun x => decide (key x = k)) = [] := by
        rw [List.filter_eq_nil_iff]
        intro b hb hbk
        rw [decide_eq_true_eq] at hbk
        have hmem : key a ∈ List.map key t := by
          rw [hk, ← hbk]
          exact List.mem_map_of_mem key hb
        exact h.1 hmem
      simp [List.filter_cons, hk, ht]
    · have ih := length_filter_key_le_one key k t h.2
      simpa [List.filter_cons, hk] using ih

/-- When every left key matches at most one right row, the left join
emits exactly the left rows, in order, as first components. -/
theorem leftJoin_map_fst (rs : List LayoverAggRow) :
    ∀ ls : List SummaryRow,
      (∀ s, (rs.filter (fun r => decide (lkey r = skey s))).length ≤ 1) →
      (leftJoin ls rs).map Prod.fst = ls
  | [], _ => rfl
  | s :: t, h => by
    have ih := leftJoin_map_fst rs t h
    simp only [leftJoin, List.flatMap_cons, List.map_append] at ih ⊢
    rw [ih]
    rcases hfl : rs.filter (fun r => decide (lkey r = skey s)) with _ | ⟨m, ms⟩
    · rfl
    · cases ms with
      | nil => rfl
      | cons m2 t2 =>
        have hlen := h s
        rw [hfl] at hlen
        simp at hlen

/-- The merge keys of the final table are exactly the summary keys: the
layover aggregate is key-unique, so the left join emits one row per
summary row, and finalizing a row preserves its key columns. -/
theorem fragility_base_keys (rows : List TripRun) :
    (fragility_base rows).map fkey = (summary rows).map skey := by
  have h1 : ∀ s, ((layover_summary rows).filter
      (fun r => decide (lkey r = skey s))).length ≤ 1 := by
    intro s
    apply length_filter_key_le_one
    rw [layover_summary_keys]
    exact List.nodup_dedup _
  simp only [fragility_base, List.map_map]
  have h2 : ∀ kq q90 : ℚ, fkey ∘ finalizeRow kq q90 = skey ∘ Prod.fst :=
    fun kq q90 => funext fun p => rfl
  rw [h2, ← List.map_map, leftJoin_map_fst (layover_summary rows)
    (summary rows) h1]

/-- Claim C8: when the route short name is a function of the route id
among the input rows (route id is the key of the routes table), the
final written table never repeats a (route id, direction id, time band)
triple. -/
theorem out_triple_nodup (rows : List TripRun)
    (hroute : ∀ r1 ∈ rows, ∀ r2 ∈ rows,
      r1.route_id = r2.route_id → r1.route_short_name = r2.route_short_name) :
    ((out rows).map out_triple).Nodup := by
  have hk4 : ((fragility_base rows).map fkey).Nodup := by
    rw [fragility_base_keys, summary_keys]
    exact List.nodup_dedup _
  have hperm : (out rows).Perm (fragility_base rows) :=
    List.perm_insertionSort out_rel (fragility_base rows)
  have hk4out : ((out rows).map fkey).Nodup :=
    ((hperm.map fkey).nodup_iff).mpr hk4
  have hmemkey : ∀ f ∈ out rows, ∃ r ∈ rows, gkey r = fkey f := by
    intro f hfo
    have hfb : f ∈ fragility_base rows := hperm.subset hfo
    have hin : fkey f ∈ (rows.map gkey).dedup := by
      rw [← summary_keys, ← fragility_base_keys]
      exact List.mem_map_of_mem fkey hfb
    exact List.mem_map.mp (List.mem_dedup.mp hin)
  have h1 : List.Pairwise (fun a b => fkey a ≠ fkey b) (out rows) :=
    List.pairwise_map.mp hk4out
  have h2 : List.Pairwise (fun a b => out_triple a ≠ out_triple b)
      (out rows) := by
    refine h1.imp_of_mem ?_
    intro a b ha hb hne heq
    apply hne
    obtain ⟨r1, hr1, he1⟩ := hmemkey a ha
    obtain ⟨r2, hr2, he2⟩ := hmemkey b hb
    simp only [out_triple, Prod.mk.injEq] at heq
    simp only [gkey, fkey, Prod.mk.injEq] at he1 he2
    have hid : r1.route_id = r2.route_id := by
      rw [he1.1, he2.1, heq.1]
    have hshort : a.route_short_name = b.route_short_name := by
      rw [← he1.2.1, ← he2.2.1]
      exact hroute r1 hr1 r2 hr2 hid
    simp only [fkey, Prod.mk.injEq]
    exact ⟨heq.1, hshort, heq.2.1, heq.2.2⟩
  exact List.pairwise_map.mpr h2

/-- Concrete check of claim C8 on the one-trip pipeline, where the
short-name hypothesis holds trivially. -/
theorem out_triple_nodup_witness :
    ((out [trip0]).map out_triple).Nodup :=
  out_triple_nodup [trip0] (by
    intro r1 h1 r2 h2 _
    rw [List.mem_singleton] at h1 h2
    subst h1
    subst h2
    rfl)

end BusFragility
